import Mathlib

/-!
Verification development for the msgpack_simple MessagePack codec.

Shallow embedding of the three source files:
* src/error.rs   — ParseError / ConversionError and offset composition
* src/lib.rs     — the MsgPack value model, MsgPack::encode, type accessors
* src/parser.rs  — parser::parse / parse_array / parse_map

Modelling conventions:
* bytes are Nat (the Rust slices are &[u8]; theorems that depend on
  byte-ness carry explicit bounds, concrete inputs use literal bytes);
* u64 / usize values are Nat, i64 / i8 values are Int;
* Rust casts and transmutes are modelled explicitly (wbe for the
  big-endian byteorder writers, i64OfU64 / i8OfByte / u8OfI8 for the
  transmutes);
* Rust f64 / f32 values are carried as their IEEE-754 bit patterns,
  which is exact for this codec: the source only transmutes floats
  to / from integers bit-for-bit (and widens f32 to f64 on decode,
  modelled by float32ToFloat64Bits);
* Rust String is carried as its UTF-8 byte vector, with utf8Valid
  modelling the String::from_utf8 validity check;
* Vec<MapElement> is carried as a list of key / value pairs.
-/

namespace MsgpackSimple

/-- Models `ParseError` from src/error.rs: the byte where the error was found. -/
structure ParseError where
  byte : Nat
deriving DecidableEq, Repr

/-- Models `ParseError::offset` (src/error.rs line 101). -/
def ParseError.offset (e : ParseError) (value : Nat) : ParseError :=
  ⟨e.byte + value⟩

/-- Models `ParseError::offset_result` (src/error.rs line 115). -/
def ParseError.offsetResult {T : Type} (result : Except ParseError T) (value : Nat) :
    Except ParseError T :=
  result.mapError (fun err => err.offset value)

/-- Models `read_8` (src/parser.rs line 6): `raw[0] as u64`. -/
def read_8 (raw : List Nat) : Nat := raw.getD 0 0

/-- Models `read_16` (src/parser.rs line 10): `raw[1] | raw[0] << 8`. -/
def read_16 (raw : List Nat) : Nat :=
  raw.getD 1 0 ||| (raw.getD 0 0) <<< 8

/-- Models `read_32` (src/parser.rs line 14). -/
def read_32 (raw : List Nat) : Nat :=
  raw.getD 3 0 ||| (raw.getD 2 0) <<< 8 ||| (raw.getD 1 0) <<< 16 ||| (raw.getD 0 0) <<< 24

/-- Models `read_64` (src/parser.rs line 18). -/
def read_64 (raw : List Nat) : Nat :=
  raw.getD 7 0 ||| (raw.getD 6 0) <<< 8 ||| (raw.getD 5 0) <<< 16 ||| (raw.getD 4 0) <<< 24
  ||| (raw.getD 3 0) <<< 32 ||| (raw.getD 2 0) <<< 40 ||| (raw.getD 1 0) <<< 48
  ||| (raw.getD 0 0) <<< 56

/-- Big-endian byte writer: `wbe k v` is the `k`-byte big-endian encoding of
`v` truncated to `k` bytes.  Models the byteorder `write_u8 / write_u16 /
write_u32 / write_u64 (BigEndian)` calls in src/lib.rs (most significant
byte first, each byte reduced mod 256 exactly as the `as uN` casts do). -/
def wbe : Nat → Nat → List Nat
  | 0, _ => []
  | k + 1, v => (v / 256 ^ k) % 256 :: wbe k v

/-- Big-endian two's-complement writer for `write_i8 / write_i16 / write_i32 /
write_i64 (BigEndian)` in src/lib.rs: the value is reduced to its `k`-byte
two's-complement pattern. -/
def wbeInt (k : Nat) (v : Int) : List Nat :=
  wbe k (v % ((256 : Int) ^ k)).toNat

/-- Models `std::mem::transmute::<u64, i64>` (src/parser.rs, int branches):
reinterpret a 64-bit unsigned pattern as a signed value. -/
def i64OfU64 (x : Nat) : Int :=
  if x < 2 ^ 63 then (x : Int) else (x : Int) - 2 ^ 64

/-- Models `std::mem::transmute::<u8, i8>` (src/parser.rs, extension branches). -/
def i8OfByte (b : Nat) : Int :=
  if b < 128 then (b : Int) else (b : Int) - 256

/-- Models `std::mem::transmute::<i8, u8>` (src/lib.rs, extension and
negative-fixint encoding). -/
def u8OfI8 (t : Int) : Nat :=
  (t % 256).toNat

/-- Models the `f32 as f64` widening used by the float 32 decode branch
(src/parser.rs line 141), at the level of IEEE-754 bit patterns: sign is
kept, the exponent is rebiased from 127 to 1023, the mantissa is shifted
into the 52-bit field; subnormals are normalized, infinities and NaNs map
to the maximal exponent. -/
def float32ToFloat64Bits (b : Nat) : Nat :=
  let s := b / 2 ^ 31
  let e := b / 2 ^ 23 % 256
  let m := b % 2 ^ 23
  if e = 255 then s * 2 ^ 63 + 2047 * 2 ^ 52 + m * 2 ^ 29
  else if e = 0 then
    if m = 0 then s * 2 ^ 63
    else
      let p := Nat.log2 m
      s * 2 ^ 63 + (874 + p) * 2 ^ 52 + (m - 2 ^ p) * 2 ^ (52 - p)
  else s * 2 ^ 63 + (e + 896) * 2 ^ 52 + m * 2 ^ 29

/-- Continuation byte test for UTF-8 validation. -/
def isCont (b : Nat) : Bool := 0x80 ≤ b && b ≤ 0xbf

/-- Models the validity check performed by `String::from_utf8` in the string
decode branches of src/parser.rs: standard UTF-8 (RFC 3629) — no overlong
forms, no surrogates, code points at most U+10FFFF. -/
def utf8Valid : List Nat → Bool
  | [] => true
  | b :: rest =>
    if b ≤ 0x7f then utf8Valid rest
    else if 0xc2 ≤ b && b ≤ 0xdf then
      match rest with
      | b1 :: rest2 => isCont b1 && utf8Valid rest2
      | _ => false
    else if b = 0xe0 then
      match rest with
      | b1 :: b2 :: rest2 => (0xa0 ≤ b1 && b1 ≤ 0xbf) && isCont b2 && utf8Valid rest2
      | _ => false
    else if (0xe1 ≤ b && b ≤ 0xec) || b = 0xee || b = 0xef then
      match rest with
      | b1 :: b2 :: rest2 => isCont b1 && isCont b2 && utf8Valid rest2
      | _ => false
    else if b = 0xed then
      match rest with
      | b1 :: b2 :: rest2 => (0x80 ≤ b1 && b1 ≤ 0x9f) && isCont b2 && utf8Valid rest2
      | _ => false
    else if b = 0xf0 then
      match rest with
      | b1 :: b2 :: b3 :: rest2 =>
        (0x90 ≤ b1 && b1 ≤ 0xbf) && isCont b2 && isCont b3 && utf8Valid rest2
      | _ => false
    else if 0xf1 ≤ b && b ≤ 0xf3 then
      match rest with
      | b1 :: b2 :: b3 :: rest2 => isCont b1 && isCont b2 && isCont b3 && utf8Valid rest2
      | _ => false
    else if b = 0xf4 then
      match rest with
      | b1 :: b2 :: b3 :: rest2 =>
        (0x80 ≤ b1 && b1 ≤ 0x8f) && isCont b2 && isCont b3 && utf8Valid rest2
      | _ => false
    else false

/-- Models the `Extension` struct from src/lib.rs line 321. -/
structure Extension where
  type_id : Int
  value : List Nat
deriving DecidableEq, Repr

/-- Models the `MsgPack` enum from src/lib.rs line 197.  The Rust variants
`Int(i64)`, `Uint(u64)`, `Float(f64)`, `String(String)`, `Binary(Vec<u8>)`,
`Map(Vec<MapElement>)` are carried as Int / Nat / IEEE bit pattern / UTF-8
byte list / byte list / key-value pair list respectively. -/
inductive MsgPack : Type where
  | nil
  | int (value : Int)
  | uint (value : Nat)
  | float (bits : Nat)
  | boolean (value : Bool)
  | str (bytes : List Nat)
  | binary (bytes : List Nat)
  | array (items : List MsgPack)
  | map (entries : List (MsgPack × MsgPack))
  | extension (e : Extension)

mutual

/-- Models `MsgPack::encode` from src/lib.rs line 356, branch for branch:
the fixint early returns, the successive range checks for Int / Uint
widths, and the length-tag selection for String / Binary / Extension /
Array / Map with the source's thresholds (`< 32` / `<= 0x88` /
`<= 0x8888` and so on). -/
def MsgPack.encode : MsgPack → List Nat
  | .nil => [0xc0]
  | .boolean value => [if value then 0xc3 else 0xc2]
  | .int value =>
    if 0 ≤ value ∧ value < 128 then [value.toNat]
    else if value < 0 ∧ -32 < value then [(value + 256).toNat]
    else if -0x80 ≤ value ∧ value < 0x80 then 0xd0 :: wbeInt 1 value
    else if -0x8000 ≤ value ∧ value < 0x8000 then 0xd1 :: wbeInt 2 value
    else if -0x80000000 ≤ value ∧ value < 0x80000000 then 0xd2 :: wbeInt 4 value
    else 0xd3 :: wbeInt 8 value
  | .uint value =>
    if value ≤ 0x88 then 0xcc :: wbe 1 value
    else if value ≤ 0x8888 then 0xcd :: wbe 2 value
    else if value ≤ 0x88888888 then 0xce :: wbe 4 value
    else 0xcf :: wbe 8 value
  | .float bits => 0xcb :: wbe 8 bits
  | .str bytes =>
    (if bytes.length < 32 then [0xa0 ||| bytes.length]
     else if bytes.length ≤ 0x88 then 0xd9 :: wbe 1 bytes.length
     else if bytes.length ≤ 0x8888 then 0xda :: wbe 2 bytes.length
     else 0xdb :: wbe 4 bytes.length) ++ bytes
  | .binary bytes =>
    (if bytes.length ≤ 0x88 then 0xc4 :: wbe 1 bytes.length
     else if bytes.length ≤ 0x8888 then 0xc5 :: wbe 2 bytes.length
     else 0xc6 :: wbe 4 bytes.length) ++ bytes
  | .extension e =>
    (if e.value.length = 1 then [0xd4]
     else if e.value.length = 2 then [0xd5]
     else if e.value.length = 4 then [0xd6]
     else if e.value.length = 8 then [0xd7]
     else if e.value.length = 16 then [0xd8]
     else if e.value.length ≤ 0x88 then 0xc7 :: wbe 1 e.value.length
     else if e.value.length ≤ 0x8888 then 0xc8 :: wbe 2 e.value.length
     else 0xc9 :: wbe 4 e.value.length) ++ u8OfI8 e.type_id :: e.value
  | .array items =>
    (if items.length < 16 then [0x90 ||| items.length]
     else if items.length ≤ 0x8888 then 0xdc :: wbe 2 items.length
     else 0xdd :: wbe 4 items.length) ++ encodeList items
  | .map entries =>
    (if entries.length < 16 then [0x80 ||| entries.length]
     else if entries.length ≤ 0x8888 then 0xde :: wbe 2 entries.length
     else 0xdf :: wbe 4 entries.length) ++ encodeEntries entries

/-- The `for item in value { result.append(item.encode()) }` loop of the
Array encode branch. -/
def encodeList : List MsgPack → List Nat
  | [] => []
  | v :: rest => v.encode ++ encodeList rest

/-- The `for item in value { key.encode(); value.encode() }` loop of the
Map encode branch. -/
def encodeEntries : List (MsgPack × MsgPack) → List Nat
  | [] => []
  | (k, v) :: rest => k.encode ++ v.encode ++ encodeEntries rest

end

/-- Models `ConversionError` from src/error.rs line 11: the untouched
original value and the label of the attempted conversion. -/
structure ConversionError where
  original : MsgPack
  attempted : String

/-- Models `ConversionError::recover` (src/error.rs line 67). -/
def ConversionError.recover (e : ConversionError) : MsgPack :=
  e.original

/-- Models `MsgPack::is_int` (src/lib.rs line 550). -/
def MsgPack.is_int : MsgPack → Bool
  | .int _ => true
  | _ => false

/-- Models `MsgPack::as_int` (src/lib.rs line 561). -/
def MsgPack.as_int : MsgPack → Except ConversionError Int
  | .int value => .ok value
  | self => .error ⟨self, "int"⟩

/-- Models `MsgPack::is_uint` (src/lib.rs line 573). -/
def MsgPack.is_uint : MsgPack → Bool
  | .uint _ => true
  | _ => false

/-- Models `MsgPack::as_uint` (src/lib.rs line 584). -/
def MsgPack.as_uint : MsgPack → Except ConversionError Nat
  | .uint value => .ok value
  | self => .error ⟨self, "uint"⟩

/-- Models `MsgPack::is_some_int` (src/lib.rs line 597). -/
def MsgPack.is_some_int : MsgPack → Bool
  | .uint _ => true
  | .int _ => true
  | _ => false

/-- Models `MsgPack::as_some_int` (src/lib.rs line 610); the `value as i64`
cast on the Uint arm is the u64-to-i64 reinterpretation. -/
def MsgPack.as_some_int : MsgPack → Except ConversionError Int
  | .int value => .ok value
  | .uint value => .ok (i64OfU64 value)
  | self => .error ⟨self, "int"⟩

/-- Models `MsgPack::is_float` (src/lib.rs line 623). -/
def MsgPack.is_float : MsgPack → Bool
  | .float _ => true
  | _ => false

/-- Models `MsgPack::as_float` (src/lib.rs line 634); the payload is the
IEEE-754 bit pattern carried by the Float variant. -/
def MsgPack.as_float : MsgPack → Except ConversionError Nat
  | .float bits => .ok bits
  | self => .error ⟨self, "float"⟩

/-- Models `MsgPack::is_boolean` (src/lib.rs line 646). -/
def MsgPack.is_boolean : MsgPack → Bool
  | .boolean _ => true
  | _ => false

/-- Models `MsgPack::as_boolean` (src/lib.rs line 657). -/
def MsgPack.as_boolean : MsgPack → Except ConversionError Bool
  | .boolean value => .ok value
  | self => .error ⟨self, "boolean"⟩

/-- Models `MsgPack::is_nil` (src/lib.rs line 669). -/
def MsgPack.is_nil : MsgPack → Bool
  | .nil => true
  | _ => false

/-- Models `MsgPack::is_string` (src/lib.rs line 681). -/
def MsgPack.is_string : MsgPack → Bool
  | .str _ => true
  | _ => false

/-- Models `MsgPack::as_string` (src/lib.rs line 692); the payload is the
UTF-8 byte vector of the Rust String. -/
def MsgPack.as_string : MsgPack → Except ConversionError (List Nat)
  | .str value => .ok value
  | self => .error ⟨self, "string"⟩

/-- Models `MsgPack::is_binary` (src/lib.rs line 704). -/
def MsgPack.is_binary : MsgPack → Bool
  | .binary _ => true
  | _ => false

/-- Models `MsgPack::as_binary` (src/lib.rs line 715). -/
def MsgPack.as_binary : MsgPack → Except ConversionError (List Nat)
  | .binary value => .ok value
  | self => .error ⟨self, "binary"⟩

/-- Models `MsgPack::is_array` (src/lib.rs line 727). -/
def MsgPack.is_array : MsgPack → Bool
  | .array _ => true
  | _ => false

/-- Models `MsgPack::as_array` (src/lib.rs line 738). -/
def MsgPack.as_array : MsgPack → Except ConversionError (List MsgPack)
  | .array value => .ok value
  | self => .error ⟨self, "array"⟩

/-- Models `MsgPack::is_map` (src/lib.rs line 750). -/
def MsgPack.is_map : MsgPack → Bool
  | .map _ => true
  | _ => false

/-- Models `MsgPack::as_map` (src/lib.rs line 761). -/
def MsgPack.as_map : MsgPack → Except ConversionError (List (MsgPack × MsgPack))
  | .map value => .ok value
  | self => .error ⟨self, "map"⟩

/-- Models `MsgPack::is_extension` (src/lib.rs line 774). -/
def MsgPack.is_extension : MsgPack → Bool
  | .extension _ => true
  | _ => false

/-- Models `MsgPack::as_extension` (src/lib.rs line 786). -/
def MsgPack.as_extension : MsgPack → Except ConversionError Extension
  | .extension value => .ok value
  | self => .error ⟨self, "extension"⟩

/-- The pairing loop of `parse_map` (src/parser.rs lines 351-357): consume
the flat element list two at a time into key/value pairs. -/
def pairUp : List MsgPack → List (MsgPack × MsgPack)
  | key :: value :: rest => (key, value) :: pairUp rest
  | _ => []

mutual

/-- Models `parser::parse` (src/parser.rs line 34), branch for branch in
source order.  `raw[k..]` is `raw.drop k`, `raw[a..b]` is
`(raw.drop a).take (b - a)`, and indexing is `getD` (every source index is
guarded by a length check, so the default is never taken). -/
def parse (raw : List Nat) : Except ParseError (MsgPack × Nat) :=
  if h0 : raw.length < 1 then .error ⟨0⟩ else
  let first_byte := raw.getD 0 0
  if first_byte ≤ 0x7f then .ok (.int (first_byte : Int), 1)
  else if 0xe0 ≤ first_byte then .ok (.int ((first_byte : Int) - 256), 1)
  else if 0x80 ≤ first_byte ∧ first_byte ≤ 0x8f then
    match ParseError.offsetResult (parse_map (raw.drop 1) (first_byte &&& 0x0f)) 1 with
    | .error e => .error e
    | .ok (value, size) => .ok (.map value, 1 + size)
  else if 0x90 ≤ first_byte ∧ first_byte ≤ 0x9f then
    match ParseError.offsetResult (parse_array (raw.drop 1) (first_byte &&& 0x0f)) 1 with
    | .error e => .error e
    | .ok (value, size) => .ok (.array value, 1 + size)
  else if 0xa0 ≤ first_byte ∧ first_byte ≤ 0xbf then
    let len := first_byte &&& 0x1f
    if raw.length < 1 + len then .error ⟨1⟩
    else if utf8Valid ((raw.drop 1).take len) then .ok (.str ((raw.drop 1).take len), 1 + len)
    else .error ⟨1⟩
  else if first_byte = 0xc0 then .ok (.nil, 1)
  else if first_byte = 0xc1 then .error ⟨0⟩
  else if first_byte = 0xc2 then .ok (.boolean false, 1)
  else if first_byte = 0xc3 then .ok (.boolean true, 1)
  else if first_byte = 0xc4 then
    if raw.length < 2 then .error ⟨1⟩ else
    let len := read_8 (raw.drop 1)
    if raw.length < 2 + len then .error ⟨2⟩
    else .ok (.binary ((raw.drop 2).take len), 2 + len)
  else if first_byte = 0xc5 then
    if raw.length < 3 then .error ⟨1⟩ else
    let len := read_16 (raw.drop 1)
    if raw.length < 3 + len then .error ⟨3⟩
    else .ok (.binary ((raw.drop 3).take len), 3 + len)
  else if first_byte = 0xc6 then
    if raw.length < 5 then .error ⟨1⟩ else
    let len := read_32 (raw.drop 1)
    if raw.length < 5 + len then .error ⟨5⟩
    else .ok (.binary ((raw.drop 5).take len), 5 + len)
  else if first_byte = 0xc7 then
    if raw.length < 3 then .error ⟨1⟩ else
    let len := read_8 (raw.drop 1)
    if raw.length < 3 + len then .error ⟨3⟩
    else .ok (.extension ⟨i8OfByte (raw.getD 2 0), (raw.drop 3).take len⟩, 3 + len)
  else if first_byte = 0xc8 then
    if raw.length < 4 then .error ⟨1⟩ else
    let len := read_16 (raw.drop 1)
    if raw.length < 4 + len then .error ⟨4⟩
    else .ok (.extension ⟨i8OfByte (raw.getD 3 0), (raw.drop 4).take len⟩, 4 + len)
  else if first_byte = 0xc9 then
    if raw.length < 6 then .error ⟨1⟩ else
    let len := read_32 (raw.drop 1)
    if raw.length < 6 + len then .error ⟨6⟩
    else .ok (.extension ⟨i8OfByte (raw.getD 5 0), (raw.drop 6).take len⟩, 6 + len)
  else if first_byte = 0xca then
    if raw.length < 5 then .error ⟨1⟩
    else .ok (.float (float32ToFloat64Bits (read_32 (raw.drop 1) % 2 ^ 32)), 5)
  else if first_byte = 0xcb then
    if raw.length < 9 then .error ⟨1⟩
    else .ok (.float (read_64 (raw.drop 1)), 9)
  else if first_byte = 0xcc then
    if raw.length < 2 then .error ⟨1⟩ else .ok (.uint (read_8 (raw.drop 1)), 2)
  else if first_byte = 0xcd then
    if raw.length < 3 then .error ⟨1⟩ else .ok (.uint (read_16 (raw.drop 1)), 3)
  else if first_byte = 0xce then
    if raw.length < 5 then .error ⟨1⟩ else .ok (.uint (read_32 (raw.drop 1)), 5)
  else if first_byte = 0xcf then
    if raw.length < 9 then .error ⟨1⟩ else .ok (.uint (read_64 (raw.drop 1)), 9)
  else if first_byte = 0xd0 then
    if raw.length < 2 then .error ⟨1⟩ else .ok (.int (i64OfU64 (read_8 (raw.drop 1))), 2)
  else if first_byte = 0xd1 then
    if raw.length < 3 then .error ⟨1⟩ else .ok (.int (i64OfU64 (read_16 (raw.drop 1))), 3)
  else if first_byte = 0xd2 then
    if raw.length < 5 then .error ⟨1⟩ else .ok (.int (i64OfU64 (read_32 (raw.drop 1))), 5)
  else if first_byte = 0xd3 then
    if raw.length < 9 then .error ⟨1⟩ else .ok (.int (i64OfU64 (read_64 (raw.drop 1))), 9)
  else if first_byte = 0xd4 then
    if raw.length < 3 then .error ⟨1⟩
    else .ok (.extension ⟨i8OfByte (raw.getD 1 0), (raw.drop 2).take 1⟩, 3)
  else if first_byte = 0xd5 then
    if raw.length < 4 then .error ⟨1⟩
    else .ok (.extension ⟨i8OfByte (raw.getD 1 0), (raw.drop 2).take 2⟩, 4)
  else if first_byte = 0xd6 then
    if raw.length < 6 then .error ⟨1⟩
    else .ok (.extension ⟨i8OfByte (raw.getD 1 0), (raw.drop 2).take 4⟩, 6)
  else if first_byte = 0xd7 then
    if raw.length < 10 then .error ⟨1⟩
    else .ok (.extension ⟨i8OfByte (raw.getD 1 0), (raw.drop 2).take 8⟩, 10)
  else if first_byte = 0xd8 then
    if raw.length < 18 then .error ⟨1⟩
    else .ok (.extension ⟨i8OfByte (raw.getD 1 0), (raw.drop 2).take 16⟩, 18)
  else if first_byte = 0xd9 then
    if raw.length < 2 then .error ⟨1⟩ else
    let len := read_8 (raw.drop 1)
    if raw.length < 2 + len then .error ⟨2⟩
    else if utf8Valid ((raw.drop 2).take len) then .ok (.str ((raw.drop 2).take len), 2 + len)
    else .error ⟨2⟩
  else if first_byte = 0xda then
    if raw.length < 3 then .error ⟨1⟩ else
    let len := read_16 (raw.drop 1)
    if raw.length < 3 + len then .error ⟨3⟩
    else if utf8Valid ((raw.drop 3).take len) then .ok (.str ((raw.drop 3).take len), 3 + len)
    else .error ⟨3⟩
  else if first_byte = 0xdb then
    if raw.length < 5 then .error ⟨1⟩ else
    let len := read_32 (raw.drop 1)
    if raw.length < 5 + len then .error ⟨5⟩
    else if utf8Valid ((raw.drop 5).take len) then .ok (.str ((raw.drop 5).take len), 5 + len)
    else .error ⟨5⟩
  else if first_byte = 0xdc then
    if raw.length < 3 then .error ⟨1⟩ else
    match ParseError.offsetResult (parse_array (raw.drop 3) (read_16 (raw.drop 1))) 3 with
    | .error e => .error e
    | .ok (value, size) => .ok (.array value, 3 + size)
  else if first_byte = 0xdd then
    if raw.length < 5 then .error ⟨1⟩ else
    match ParseError.offsetResult (parse_array (raw.drop 5) (read_32 (raw.drop 1))) 5 with
    | .error e => .error e
    | .ok (value, size) => .ok (.array value, 5 + size)
  else if first_byte = 0xde then
    if raw.length < 3 then .error ⟨1⟩ else
    match ParseError.offsetResult (parse_map (raw.drop 3) (read_16 (raw.drop 1))) 3 with
    | .error e => .error e
    | .ok (value, size) => .ok (.map value, 3 + size)
  else if first_byte = 0xdf then
    if raw.length < 5 then .error ⟨1⟩ else
    match ParseError.offsetResult (parse_map (raw.drop 5) (read_32 (raw.drop 1))) 5 with
    | .error e => .error e
    | .ok (value, size) => .ok (.map value, 5 + size)
  else .error ⟨0⟩
termination_by (raw.length, 0)
decreasing_by
  all_goals simp [Prod.lex_def, List.length_drop]
  all_goals omega

/-- Models `parse_array` (src/parser.rs line 331).  The source loop keeps a
cursor into `raw` and offsets every element error by the cursor; that is
modelled by recursing on the remaining element count over the suffix
`raw.drop size`, adding `size` to any error of the tail — the accumulated
offsets are identical. -/
def parse_array (raw : List Nat) (length : Nat) : Except ParseError (List MsgPack × Nat) :=
  match length with
  | 0 => .ok ([], 0)
  | n + 1 =>
    match parse raw with
    | .error err => .error err
    | .ok (value, size) =>
      match parse_array (raw.drop size) n with
      | .error err => .error (err.offset size)
      | .ok (result, cursor) => .ok (value :: result, size + cursor)
termination_by (raw.length, 2 * length + 1)
decreasing_by
  all_goals simp [Prod.lex_def, List.length_drop]
  all_goals omega

/-- Models `parse_map` (src/parser.rs line 344): parse `2 * length`
consecutive values, then pair them positionally. -/
def parse_map (raw : List Nat) (length : Nat) :
    Except ParseError (List (MsgPack × MsgPack) × Nat) :=
  match parse_array raw (length * 2) with
  | .error err => .error err
  | .ok (elements, size) => .ok (pairUp elements, size)
termination_by (raw.length, 4 * length + 2)
decreasing_by
  all_goals simp [Prod.lex_def, List.length_drop]
  all_goals omega

end

/-! ## Helper lemmas -/

theorem offsetResult_ok {T : Type} (r : Except ParseError T) (k : Nat) (x : T) :
    ParseError.offsetResult r k = .ok x ↔ r = .ok x := by
  cases r <;> simp [ParseError.offsetResult, Except.mapError]

theorem wbe_length (k v : Nat) : (wbe k v).length = k := by
  induction k generalizing v with
  | zero => rfl
  | succ m ih => simp [wbe, ih]

theorem fixstr_lor : ∀ l : Nat, l < 32 → 0xa0 ||| l = 0xa0 + l := by decide

theorem fixarray_lor : ∀ l : Nat, l < 16 → 0x90 ||| l = 0x90 + l := by decide

theorem fixmap_lor : ∀ l : Nat, l < 16 → 0x80 ||| l = 0x80 + l := by decide

/-! ## Claim theorems -/

/-- C1: the round-trip claim `parser::parse(v.encode()) == Ok((v, v.encode().len()))`
fails at `Int(-100)`: the encoder emits the int8 form `[0xd0, 0x9c]`
(two's-complement byte 0x9c), but the decoder reinterprets the one-byte
payload as an unsigned 64-bit pattern without sign extension and returns
`Int(156)` instead of `Int(-100)`. -/
theorem roundtrip_failure_int_neg100 :
    MsgPack.encode (.int (-100)) = [0xd0, 0x9c] ∧
    parse [0xd0, 0x9c] = .ok (.int 156, 2) ∧
    (MsgPack.int 156 : MsgPack) ≠ .int (-100) := by
  refine ⟨by decide, ?_, by simp⟩
  simp [parse, read_8, i64OfU64]

/-- C2: the claim says the payload of tags 0xd0-0xd3 is decoded as a
big-endian two's-complement signed integer (so `[0xd0, 0xff]` gives
`Int(-1)`).  The code instead transmutes the zero-extended u64 read, so
`[0xd0, 0xff]` decodes to `Int(255)`, `[0xd1, 0xff, 0xff]` to `Int(65535)`
and `[0xd2, 0xff, 0xff, 0xff, 0xff]` to `Int(4294967295)`: widths 8/16/32
are not sign-extended; only the full-width int64 read (all-0xff payload
giving `Int(-1)`) behaves as two's complement. -/
theorem parse_int_no_sign_extension :
    parse [0xd0, 0xff] = .ok (.int 255, 2) ∧
    parse [0xd1, 0xff, 0xff] = .ok (.int 65535, 3) ∧
    parse [0xd2, 0xff, 0xff, 0xff, 0xff] = .ok (.int 4294967295, 5) ∧
    parse [0xd3, 0xff, 0xff, 0xff, 0xff, 0xff, 0xff, 0xff, 0xff] = .ok (.int (-1), 9) := by
  have h16 : read_16 [0xff, 0xff] = 65535 := by decide
  have h32 : read_32 [0xff, 0xff, 0xff, 0xff] = 4294967295 := by decide
  have h64 : read_64 [0xff, 0xff, 0xff, 0xff, 0xff, 0xff, 0xff, 0xff] =
      18446744073709551615 := by decide
  have i16 : i64OfU64 65535 = 65535 := by decide
  have i32 : i64OfU64 4294967295 = 4294967295 := by decide
  have i64 : i64OfU64 18446744073709551615 = -1 := by decide
  refine ⟨?_, ?_, ?_, ?_⟩ <;> simp [parse, read_8, i64OfU64, h16, h32, h64, i16, i32, i64]

/-- C6: parse-error byte offsets are relative to the original buffer and
compose additively across recursive calls: `[0xc4]` fails at byte 1,
`[0xc4, 0x05]` fails at byte 2, the nested `[0x91, 0xc4]` fails at byte 2
(1 for entering the array + 1 for the inner failure), and in general an
element error inside `parse_array` is shifted by the bytes already
consumed in the enclosing call. -/
theorem parse_error_offsets :
    parse [0xc4] = .error ⟨1⟩ ∧
    parse [0xc4, 0x05] = .error ⟨2⟩ ∧
    parse [0x91, 0xc4] = .error ⟨2⟩ ∧
    ∀ (raw : List Nat) (n : Nat) (v : MsgPack) (size : Nat) (e : ParseError),
      parse raw = .ok (v, size) → parse_array (raw.drop size) n = .error e →
      parse_array raw (n + 1) = .error ⟨e.byte + size⟩ := by
  refine ⟨by simp [parse], by simp [parse, read_8], ?_, ?_⟩
  · have h1 : (0x91 : Nat) &&& 15 = 1 := by decide
    simp [parse, h1, parse_array, ParseError.offsetResult, ParseError.offset, Except.mapError]
  · intro raw n v size e hp ha
    simp [parse_array, hp, ha, ParseError.offset]

/-- C6 witness: the compositional part of `parse_error_offsets` applied to the
concrete buffer `[0x01, 0xc4]`: the first element consumes 1 byte, the second
fails at inner byte 1, so the array-level error is at byte 2. -/
theorem parse_error_offsets_witness :
    parse_array [0x01, 0xc4] 2 = .error ⟨2⟩ := by
  have h := parse_error_offsets.2.2.2 [0x01, 0xc4] 1 (.int 1) 1 ⟨1⟩
    (by simp [parse]) (by simp [parse_array, parse])
  simpa using h

/-- C7: decoding an empty buffer fails with byte offset 0, and decoding any
buffer whose first byte is the reserved tag 0xc1 fails with byte offset 0;
no value is returned in either case. -/
theorem parse_empty_and_reserved_tag :
    parse [] = .error ⟨0⟩ ∧
    ∀ rest : List Nat, parse (0xc1 :: rest) = .error ⟨0⟩ := by
  refine ⟨by simp [parse], ?_⟩
  intro rest
  simp [parse]

/-- C7 witness: the reserved-tag part applied to the one-byte buffer `[0xc1]`. -/
theorem parse_empty_and_reserved_tag_witness :
    parse [0xc1] = .error ⟨0⟩ :=
  parse_empty_and_reserved_tag.2 []

/-- C8: map decoding is positional and order-preserving: the concrete buffer
`[0x82, 0xa1, 0x61, 0x01, 0xa1, 0x62, 0x02]` decodes to the two-entry map
`[("a", 1), ("b", 2)]` in exactly that order, and in general `parse_map`
parses `2n` consecutive values and pairs them sequentially, entry `i`
taking elements `2i` and `2i + 1`. -/
theorem map_decode_positional :
    parse [0x82, 0xa1, 0x61, 0x01, 0xa1, 0x62, 0x02] =
      .ok (.map [(.str [0x61], .int 1), (.str [0x62], .int 2)], 7) ∧
    (∀ (raw : List Nat) (n : Nat),
      parse_map raw n = (parse_array raw (n * 2)).map (fun p => (pairUp p.1, p.2))) ∧
    ∀ (l : List MsgPack) (i : Nat) (k v : MsgPack),
      l.get? (2 * i) = some k → l.get? (2 * i + 1) = some v →
      (pairUp l).get? i = some (k, v) := by
  refine ⟨?_, ?_, ?_⟩
  · have h2 : (0xa1 : Nat) &&& 31 = 1 := by decide
    have hua : utf8Valid [97] = true := by decide
    have hub : utf8Valid [98] = true := by decide
    have e1 : parse [0xa1, 0x61, 0x01, 0xa1, 0x62, 0x02] = .ok (.str [0x61], 2) := by
      simp [parse, h2, hua]
    have e2 : parse [0x01, 0xa1, 0x62, 0x02] = .ok (.int 1, 1) := by
      simp [parse]
    have e3 : parse [0xa1, 0x62, 0x02] = .ok (.str [0x62], 2) := by
      simp [parse, h2, hub]
    have e4 : parse [0x02] = .ok (.int 2, 1) := by
      simp [parse]
    have ea : parse_array [0xa1, 0x61, 0x01, 0xa1, 0x62, 0x02] 4 =
        .ok ([.str [0x61], .int 1, .str [0x62], .int 2], 6) := by
      simp [parse_array, e1, e2, e3, e4]
    have em : parse_map [0xa1, 0x61, 0x01, 0xa1, 0x62, 0x02] 2 =
        .ok ([(.str [0x61], .int 1), (.str [0x62], .int 2)], 6) := by
      simp [parse_map, ea, pairUp]
    have h1 : (0x82 : Nat) &&& 15 = 2 := by decide
    simp [parse, h1, em, ParseError.offsetResult, Except.mapError]
  · intro raw n
    cases h : parse_array raw (n * 2) with
    | error e => simp [parse_map, h, Except.map]
    | ok p => cases p with
      | mk elements size => simp [parse_map, h, Except.map]
  · intro l i
    induction i generalizing l with
    | zero =>
      intro k v hk hv
      match l with
      | [] => simp at hk
      | [a] => simp at hv
      | a :: b :: rest => simp_all [pairUp]
    | succ m ih =>
      intro k v hk hv
      match l with
      | [] => simp at hk
      | [a] =>
        rw [show 2 * (m + 1) = 2 * m + 1 + 1 by ring] at hk
        simp at hk
      | a :: b :: rest =>
        have hk2 : rest.get? (2 * m) = some k := by
          rw [show 2 * (m + 1) = 2 * m + 1 + 1 by ring] at hk
          simpa using hk
        have hv2 : rest.get? (2 * m + 1) = some v := by
          rw [show 2 * (m + 1) + 1 = 2 * m + 1 + 1 + 1 by ring] at hv
          simpa using hv
        simpa [pairUp] using ih rest k v hk2 hv2

/-- C8 witness: the pairing part of `map_decode_positional` applied to a
concrete four-element list at entry index 1. -/
theorem map_decode_positional_witness :
    (pairUp [.int 1, .int 2, .int 3, .int 4]).get? 1 = some (.int 3, .int 4) :=
  map_decode_positional.2.2 [.int 1, .int 2, .int 3, .int 4] 1 (.int 3) (.int 4)
    (by simp) (by simp)

set_option maxRecDepth 4096 in
/-- C3 counterexample: a String of length 137 does not use the str8 form
predicted by the claim (`0xd9` tag with a one-byte length); the encoder
switches to str16 already above length 0x88 = 136. -/
theorem encode_str137_not_str8 :
    MsgPack.encode (.str (List.replicate 137 97)) ≠ 0xd9 :: 137 :: List.replicate 137 97 := by
  decide

/-- C4 counterexample: `Uint(137)` does not use the uint8 form predicted by
the claim; the encoder switches to uint16 above 0x88 = 136. -/
theorem encode_uint137_not_uint8 :
    MsgPack.encode (.uint 137) ≠ [0xcc, 137] := by decide

/-- C5 counterexample: `Int(-32)` is not encoded as the single negative
fixint byte 0xe0; the range check `value > -32` excludes -32, so the int8
form `[0xd0, 0xe0]` is emitted instead. -/
theorem encode_int_neg32_not_fixint :
    MsgPack.encode (.int (-32)) ≠ [0xe0] := by decide

/-- C4 (amended): `Uint` never uses a single-byte unsigned fixint and always
picks one of uint8 / uint16 / uint32 / uint64, but the width thresholds are
the source's `0x88` = 136, `0x8888` = 34952 and `0x88888888` = 2290649224
rather than the claimed 255 / 65535 / 4294967295. -/
theorem encode_uint_width_selection : ∀ v : Nat,
    (v ≤ 136 → MsgPack.encode (.uint v) = [0xcc, v]) ∧
    (136 < v → v ≤ 34952 → MsgPack.encode (.uint v) = 0xcd :: wbe 2 v) ∧
    (34952 < v → v ≤ 2290649224 → MsgPack.encode (.uint v) = 0xce :: wbe 4 v) ∧
    (2290649224 < v → MsgPack.encode (.uint v) = 0xcf :: wbe 8 v) ∧
    2 ≤ (MsgPack.encode (.uint v)).length := by
  intro v
  refine ⟨?_, ?_, ?_, ?_, ?_⟩
  · intro h
    have hv : v % 256 = v := Nat.mod_eq_of_lt (by omega)
    simp [MsgPack.encode, wbe, h, hv]
  · intro h1 h2
    simp [MsgPack.encode, h2, show ¬ v ≤ 136 by omega]
  · intro h1 h2
    simp [MsgPack.encode, h2, show ¬ v ≤ 136 by omega, show ¬ v ≤ 34952 by omega]
  · intro h
    simp [MsgPack.encode, show ¬ v ≤ 136 by omega, show ¬ v ≤ 34952 by omega,
      show ¬ v ≤ 2290649224 by omega]
  · rcases le_or_lt v 136 with h | h
    · simp [MsgPack.encode, h, wbe_length]
    rcases le_or_lt v 34952 with h2 | h2
    · simp [MsgPack.encode, h2, show ¬ v ≤ 136 by omega, wbe_length]
    rcases le_or_lt v 2290649224 with h3 | h3
    · simp [MsgPack.encode, h3, show ¬ v ≤ 136 by omega, show ¬ v ≤ 34952 by omega, wbe_length]
    · simp [MsgPack.encode, show ¬ v ≤ 136 by omega, show ¬ v ≤ 34952 by omega,
        show ¬ v ≤ 2290649224 by omega, wbe_length]

/-- C4 witness: the uint16 case of `encode_uint_width_selection` at 137. -/
theorem encode_uint_width_selection_witness :
    MsgPack.encode (.uint 137) = 0xcd :: wbe 2 137 :=
  (encode_uint_width_selection 137).2.1 (by omega) (by omega)

/-- C5 (amended): the Int encoder prefers a single-byte fixint exactly on
the open-below interval (-32, 128) — that is [-31, 127], not the claimed
[-32, 127) — and otherwise picks the first of int8 / int16 / int32 / int64
whose two's-complement range contains the value; `Int(-32)` therefore
encodes as `[0xd0, 0xe0]`. -/
theorem encode_int_width_selection : ∀ i : Int,
    (0 ≤ i → i < 128 → MsgPack.encode (.int i) = [i.toNat]) ∧
    (-32 < i → i < 0 → MsgPack.encode (.int i) = [(i + 256).toNat]) ∧
    (-128 ≤ i → i ≤ -32 → MsgPack.encode (.int i) = [0xd0, (i + 256).toNat]) ∧
    (128 ≤ i → i < 32768 → MsgPack.encode (.int i) = 0xd1 :: wbe 2 i.toNat) ∧
    (-32768 ≤ i → i < -128 → MsgPack.encode (.int i) = 0xd1 :: wbe 2 (i + 65536).toNat) ∧
    (32768 ≤ i → i < 2147483648 → MsgPack.encode (.int i) = 0xd2 :: wbe 4 i.toNat) ∧
    (-2147483648 ≤ i → i < -32768 →
      MsgPack.encode (.int i) = 0xd2 :: wbe 4 (i + 4294967296).toNat) ∧
    (2147483648 ≤ i → i < 9223372036854775808 →
      MsgPack.encode (.int i) = 0xd3 :: wbe 8 i.toNat) ∧
    (-9223372036854775808 ≤ i → i < -2147483648 →
      MsgPack.encode (.int i) = 0xd3 :: wbe 8 (i + 18446744073709551616).toNat) := by
  intro i
  refine ⟨?_, ?_, ?_, ?_, ?_, ?_, ?_, ?_, ?_⟩
  · intro h1 h2
    simp [MsgPack.encode, show 0 ≤ i ∧ i < 128 from ⟨h1, h2⟩]
  · intro h1 h2
    simp [MsgPack.encode, show ¬ (0 ≤ i ∧ i < 128) by omega,
      show i < 0 ∧ -32 < i from ⟨h2, h1⟩]
  · intro h1 h2
    simp only [MsgPack.encode, wbeInt, wbe]
    rw [if_neg (by omega), if_neg (by omega), if_pos (by omega)]
    rw [show ((256 : Int) ^ 1) = 256 by norm_num]
    simp only [pow_zero, Nat.div_one, List.cons.injEq, true_and, and_true]
    omega
  · intro h1 h2
    simp only [MsgPack.encode, wbeInt]
    rw [if_neg (by omega), if_neg (by omega), if_neg (by omega), if_pos (by omega)]
    rw [show ((256 : Int) ^ 2) = 65536 by norm_num, show (i % 65536).toNat = i.toNat by omega]
  · intro h1 h2
    simp only [MsgPack.encode, wbeInt]
    rw [if_neg (by omega), if_neg (by omega), if_neg (by omega), if_pos (by omega)]
    rw [show ((256 : Int) ^ 2) = 65536 by norm_num,
      show (i % 65536).toNat = (i + 65536).toNat by omega]
  · intro h1 h2
    simp only [MsgPack.encode, wbeInt]
    rw [if_neg (by omega), if_neg (by omega), if_neg (by omega), if_neg (by omega),
      if_pos (by omega)]
    rw [show ((256 : Int) ^ 4) = 4294967296 by norm_num,
      show (i % 4294967296).toNat = i.toNat by omega]
  · intro h1 h2
    simp only [MsgPack.encode, wbeInt]
    rw [if_neg (by omega), if_neg (by omega), if_neg (by omega), if_neg (by omega),
      if_pos (by omega)]
    rw [show ((256 : Int) ^ 4) = 4294967296 by norm_num,
      show (i % 4294967296).toNat = (i + 4294967296).toNat by omega]
  · intro h1 h2
    simp only [MsgPack.encode, wbeInt]
    rw [if_neg (by omega), if_neg (by omega), if_neg (by omega), if_neg (by omega),
      if_neg (by omega)]
    rw [show ((256 : Int) ^ 8) = 18446744073709551616 by norm_num,
      show (i % 18446744073709551616).toNat = i.toNat by omega]
  · intro h1 h2
    simp only [MsgPack.encode, wbeInt]
    rw [if_neg (by omega), if_neg (by omega), if_neg (by omega), if_neg (by omega),
      if_neg (by omega)]
    rw [show ((256 : Int) ^ 8) = 18446744073709551616 by norm_num,
      show (i % 18446744073709551616).toNat = (i + 18446744073709551616).toNat by omega]

/-- C5 witness: `encode_int_width_selection` at 42, -1 and -32: fixints for
42 and -1, the int8 form for -32. -/
theorem encode_int_width_selection_witness :
    MsgPack.encode (.int 42) = [0x2a] ∧
    MsgPack.encode (.int (-1)) = [0xff] ∧
    MsgPack.encode (.int (-32)) = [0xd0, 0xe0] := by
  refine ⟨?_, ?_, ?_⟩
  · have h := (encode_int_width_selection 42).1 (by omega) (by omega)
    simpa using h
  · have h := (encode_int_width_selection (-1)).2.1 (by omega) (by omega)
    simpa using h
  · have h := (encode_int_width_selection (-32)).2.2.1 (by omega) (by omega)
    simpa using h

/-- C3 (amended): String / Binary / Array / Map pick the length-tag family by
successive range checks and an Extension whose payload length is exactly
1 / 2 / 4 / 8 / 16 uses the corresponding fixext tag (0xd6 for 4 bytes), but
the explicit-length thresholds are the source's 0x88 = 136 and
0x8888 = 34952 rather than the claimed 255 and 65535: fixstr for lengths
0-31, then str8 up to 136, str16 up to 34952, else str32; bin8 up to 136,
then bin16 / bin32; fixarray and fixmap for counts 0-15, then the 16-bit
form up to 34952, else the 32-bit form; ext8 / ext16 / ext32 by the same
136 / 34952 thresholds. -/
theorem encode_length_tag_selection :
    (∀ s : List Nat,
      (s.length < 32 → MsgPack.encode (.str s) = (0xa0 + s.length) :: s) ∧
      (32 ≤ s.length → s.length ≤ 136 → MsgPack.encode (.str s) = 0xd9 :: s.length :: s) ∧
      (136 < s.length → s.length ≤ 34952 →
        MsgPack.encode (.str s) = 0xda :: wbe 2 s.length ++ s) ∧
      (34952 < s.length → MsgPack.encode (.str s) = 0xdb :: wbe 4 s.length ++ s)) ∧
    (∀ b : List Nat,
      (b.length ≤ 136 → MsgPack.encode (.binary b) = 0xc4 :: b.length :: b) ∧
      (136 < b.length → b.length ≤ 34952 →
        MsgPack.encode (.binary b) = 0xc5 :: wbe 2 b.length ++ b) ∧
      (34952 < b.length → MsgPack.encode (.binary b) = 0xc6 :: wbe 4 b.length ++ b)) ∧
    (∀ items : List MsgPack,
      (items.length < 16 →
        MsgPack.encode (.array items) = (0x90 + items.length) :: encodeList items) ∧
      (16 ≤ items.length → items.length ≤ 34952 →
        MsgPack.encode (.array items) = 0xdc :: wbe 2 items.length ++ encodeList items) ∧
      (34952 < items.length →
        MsgPack.encode (.array items) = 0xdd :: wbe 4 items.length ++ encodeList items)) ∧
    (∀ entries : List (MsgPack × MsgPack),
      (entries.length < 16 →
        MsgPack.encode (.map entries) = (0x80 + entries.length) :: encodeEntries entries) ∧
      (16 ≤ entries.length → entries.length ≤ 34952 →
        MsgPack.encode (.map entries) = 0xde :: wbe 2 entries.length ++ encodeEntries entries) ∧
      (34952 < entries.length →
        MsgPack.encode (.map entries) = 0xdf :: wbe 4 entries.length ++ encodeEntries entries)) ∧
    (∀ (t : Int) (pv : List Nat),
      (pv.length = 1 → MsgPack.encode (.extension ⟨t, pv⟩) = 0xd4 :: u8OfI8 t :: pv) ∧
      (pv.length = 2 → MsgPack.encode (.extension ⟨t, pv⟩) = 0xd5 :: u8OfI8 t :: pv) ∧
      (pv.length = 4 → MsgPack.encode (.extension ⟨t, pv⟩) = 0xd6 :: u8OfI8 t :: pv) ∧
      (pv.length = 8 → MsgPack.encode (.extension ⟨t, pv⟩) = 0xd7 :: u8OfI8 t :: pv) ∧
      (pv.length = 16 → MsgPack.encode (.extension ⟨t, pv⟩) = 0xd8 :: u8OfI8 t :: pv) ∧
      (pv.length ≠ 1 → pv.length ≠ 2 → pv.length ≠ 4 → pv.length ≠ 8 → pv.length ≠ 16 →
        pv.length ≤ 136 →
        MsgPack.encode (.extension ⟨t, pv⟩) = 0xc7 :: pv.length :: u8OfI8 t :: pv) ∧
      (136 < pv.length → pv.length ≤ 34952 →
        MsgPack.encode (.extension ⟨t, pv⟩) = 0xc8 :: wbe 2 pv.length ++ u8OfI8 t :: pv) ∧
      (34952 < pv.length →
        MsgPack.encode (.extension ⟨t, pv⟩) = 0xc9 :: wbe 4 pv.length ++ u8OfI8 t :: pv)) := by
  refine ⟨fun s => ⟨?_, ?_, ?_, ?_⟩, fun b => ⟨?_, ?_, ?_⟩, fun items => ⟨?_, ?_, ?_⟩,
    fun entries => ⟨?_, ?_, ?_⟩, fun t pv => ⟨?_, ?_, ?_, ?_, ?_, ?_, ?_, ?_⟩⟩
  · intro h
    simp [MsgPack.encode, h, fixstr_lor s.length h]
  · intro h1 h2
    have hm : s.length % 256 = s.length := by omega
    simp [MsgPack.encode, wbe, hm, show ¬ s.length < 32 by omega, h2]
  · intro h1 h2
    simp [MsgPack.encode, show ¬ s.length < 32 by omega, show ¬ s.length ≤ 136 by omega, h2]
  · intro h
    simp [MsgPack.encode, show ¬ s.length < 32 by omega, show ¬ s.length ≤ 136 by omega,
      show ¬ s.length ≤ 34952 by omega]
  · intro h
    have hm : b.length % 256 = b.length := by omega
    simp [MsgPack.encode, wbe, hm, h]
  · intro h1 h2
    simp [MsgPack.encode, show ¬ b.length ≤ 136 by omega, h2]
  · intro h
    simp [MsgPack.encode, show ¬ b.length ≤ 136 by omega, show ¬ b.length ≤ 34952 by omega]
  · intro h
    simp [MsgPack.encode, h, fixarray_lor items.length h]
  · intro h1 h2
    simp [MsgPack.encode, show ¬ items.length < 16 by omega, h2]
  · intro h
    simp [MsgPack.encode, show ¬ items.length < 16 by omega,
      show ¬ items.length ≤ 34952 by omega]
  · intro h
    simp [MsgPack.encode, h, fixmap_lor entries.length h]
  · intro h1 h2
    simp [MsgPack.encode, show ¬ entries.length < 16 by omega, h2]
  · intro h
    simp [MsgPack.encode, show ¬ entries.length < 16 by omega,
      show ¬ entries.length ≤ 34952 by omega]
  · intro h
    simp [MsgPack.encode, h]
  · intro h
    simp [MsgPack.encode, h]
  · intro h
    simp [MsgPack.encode, h]
  · intro h
    simp [MsgPack.encode, h]
  · intro h
    simp [MsgPack.encode, h]
  · intro h1 h2 h3 h4 h5 h6
    have hm : pv.length % 256 = pv.length := by omega
    simp [MsgPack.encode, wbe, hm, h1, h2, h3, h4, h5, h6]
  · intro h1 h2
    simp [MsgPack.encode, show pv.length ≠ 1 by omega, show pv.length ≠ 2 by omega,
      show pv.length ≠ 4 by omega, show pv.length ≠ 8 by omega,
      show pv.length ≠ 16 by omega, show ¬ pv.length ≤ 136 by omega, h2]
  · intro h
    simp [MsgPack.encode, show pv.length ≠ 1 by omega, show pv.length ≠ 2 by omega,
      show pv.length ≠ 4 by omega, show pv.length ≠ 8 by omega,
      show pv.length ≠ 16 by omega, show ¬ pv.length ≤ 136 by omega,
      show ¬ pv.length ≤ 34952 by omega]

/-- C3 witness: the fixext4 case of `encode_length_tag_selection` on a
4-byte extension payload, and the fixstr case on a 5-byte string. -/
theorem encode_length_tag_selection_witness :
    MsgPack.encode (.extension ⟨7, [1, 2, 3, 4]⟩) = 0xd6 :: u8OfI8 7 :: [1, 2, 3, 4] ∧
    MsgPack.encode (.str [104, 101, 108, 108, 111]) = 0xa5 :: [104, 101, 108, 108, 111] := by
  constructor
  · exact (encode_length_tag_selection.2.2.2.2 7 [1, 2, 3, 4]).2.2.1 rfl
  · have h := (encode_length_tag_selection.1 [104, 101, 108, 108, 111]).1 (by simp)
    simpa using h

/-- C9: a type accessor applied to a value of the wrong variant fails with a
ConversionError whose attempted label names the requested type and whose
original field carries the consumed value back unchanged, so recover
returns exactly that value.  Stated for every accessor of the source. -/
theorem accessor_failure_preserves_value : ∀ v : MsgPack,
    (v.is_int = false → v.as_int = .error ⟨v, "int"⟩ ∧
      (ConversionError.mk v "int").recover = v) ∧
    (v.is_uint = false → v.as_uint = .error ⟨v, "uint"⟩ ∧
      (ConversionError.mk v "uint").recover = v) ∧
    (v.is_float = false → v.as_float = .error ⟨v, "float"⟩ ∧
      (ConversionError.mk v "float").recover = v) ∧
    (v.is_boolean = false → v.as_boolean = .error ⟨v, "boolean"⟩ ∧
      (ConversionError.mk v "boolean").recover = v) ∧
    (v.is_string = false → v.as_string = .error ⟨v, "string"⟩ ∧
      (ConversionError.mk v "string").recover = v) ∧
    (v.is_binary = false → v.as_binary = .error ⟨v, "binary"⟩ ∧
      (ConversionError.mk v "binary").recover = v) ∧
    (v.is_array = false → v.as_array = .error ⟨v, "array"⟩ ∧
      (ConversionError.mk v "array").recover = v) ∧
    (v.is_map = false → v.as_map = .error ⟨v, "map"⟩ ∧
      (ConversionError.mk v "map").recover = v) ∧
    (v.is_extension = false → v.as_extension = .error ⟨v, "extension"⟩ ∧
      (ConversionError.mk v "extension").recover = v) ∧
    (v.is_some_int = false → v.as_some_int = .error ⟨v, "int"⟩ ∧
      (ConversionError.mk v "int").recover = v) := by
  intro v
  cases v <;>
    simp [MsgPack.is_int, MsgPack.as_int, MsgPack.is_uint, MsgPack.as_uint,
      MsgPack.is_float, MsgPack.as_float, MsgPack.is_boolean, MsgPack.as_boolean,
      MsgPack.is_string, MsgPack.as_string, MsgPack.is_binary, MsgPack.as_binary,
      MsgPack.is_array, MsgPack.as_array, MsgPack.is_map, MsgPack.as_map,
      MsgPack.is_extension, MsgPack.as_extension, MsgPack.is_some_int,
      MsgPack.as_some_int, ConversionError.recover]

/-- C9 witness: `as_int` on the string value "x" (byte 0x78) fails with the
label "int" carrying the string back, and recover returns it unchanged. -/
theorem accessor_failure_preserves_value_witness :
    MsgPack.as_int (.str [120]) = .error ⟨.str [120], "int"⟩ ∧
    (ConversionError.mk (.str [120]) "int").recover = .str [120] :=
  (accessor_failure_preserves_value (.str [120])).1 rfl


theorem parse_bounds_aux : ∀ N : Nat, ∀ raw : List Nat, raw.length < N →
    (∀ v n, parse raw = .ok (v, n) → 1 ≤ n ∧ n ≤ raw.length) ∧
    (∀ len vs n, parse_array raw len = .ok (vs, n) → n ≤ raw.length) ∧
    (∀ len es n, parse_map raw len = .ok (es, n) → n ≤ raw.length) := by
  intro N
  induction N with
  | zero => intro raw h; omega
  | succ N ih =>
    intro raw hlen
    have hP : ∀ v n, parse raw = .ok (v, n) → 1 ≤ n ∧ n ≤ raw.length := by
      intro v n hok
      simp only [parse] at hok
      by_cases c0 : raw.length < 1
      · rw [dif_pos c0] at hok; exact Except.noConfusion hok
      rw [dif_neg c0] at hok
      by_cases c1 : raw.getD 0 0 ≤ 0x7f
      · rw [if_pos c1] at hok
        obtain ⟨hv, hn⟩ := hok
        omega
      rw [if_neg c1] at hok
      by_cases c2 : 0xe0 ≤ raw.getD 0 0
      · rw [if_pos c2] at hok
        obtain ⟨hv, hn⟩ := hok
        omega
      rw [if_neg c2] at hok
      by_cases c3 : 0x80 ≤ raw.getD 0 0 ∧ raw.getD 0 0 ≤ 0x8f
      · rw [if_pos c3] at hok
        cases hm : ParseError.offsetResult (parse_map (List.drop 1 raw) (raw.getD 0 0 &&& 0x0f)) 1 with
        | error e => rw [hm] at hok; exact Except.noConfusion hok
        | ok p =>
          obtain ⟨value, size⟩ := p
          rw [hm] at hok
          obtain ⟨hv, hn⟩ := hok
          rw [offsetResult_ok] at hm
          have hb := (ih (List.drop 1 raw) (by simp only [List.length_drop]; omega)).2.2 _ _ _ hm
          simp only [List.length_drop] at hb
          omega
      rw [if_neg c3] at hok
      by_cases c4 : 0x90 ≤ raw.getD 0 0 ∧ raw.getD 0 0 ≤ 0x9f
      · rw [if_pos c4] at hok
        cases hm : ParseError.offsetResult (parse_array (List.drop 1 raw) (raw.getD 0 0 &&& 0x0f)) 1 with
        | error e => rw [hm] at hok; exact Except.noConfusion hok
        | ok p =>
          obtain ⟨value, size⟩ := p
          rw [hm] at hok
          obtain ⟨hv, hn⟩ := hok
          rw [offsetResult_ok] at hm
          have hb := (ih (List.drop 1 raw) (by simp only [List.length_drop]; omega)).2.1 _ _ _ hm
          simp only [List.length_drop] at hb
          omega
      rw [if_neg c4] at hok
      by_cases c5 : 0xa0 ≤ raw.getD 0 0 ∧ raw.getD 0 0 ≤ 0xbf
      · rw [if_pos c5] at hok
        by_cases g5_0 : raw.length < 1 + (raw.getD 0 0 &&& 0x1f)
        · rw [if_pos g5_0] at hok; exact Except.noConfusion hok
        rw [if_neg g5_0] at hok
        by_cases u5 : utf8Valid (List.take (raw.getD 0 0 &&& 0x1f) (List.drop 1 raw)) = true
        · rw [if_pos u5] at hok
          obtain ⟨hv, hn⟩ := hok
          omega
        · rw [if_neg u5] at hok; exact Except.noConfusion hok
      rw [if_neg c5] at hok
      by_cases c6 : raw.getD 0 0 = 0xc0
      · rw [if_pos c6] at hok
        obtain ⟨hv, hn⟩ := hok
        omega
      rw [if_neg c6] at hok
      by_cases c7 : raw.getD 0 0 = 0xc1
      · rw [if_pos c7] at hok; exact Except.noConfusion hok
      rw [if_neg c7] at hok
      by_cases c8 : raw.getD 0 0 = 0xc2
      · rw [if_pos c8] at hok
        obtain ⟨hv, hn⟩ := hok
        omega
      rw [if_neg c8] at hok
      by_cases c9 : raw.getD 0 0 = 0xc3
      · rw [if_pos c9] at hok
        obtain ⟨hv, hn⟩ := hok
        omega
      rw [if_neg c9] at hok
      by_cases c10 : raw.getD 0 0 = 0xc4
      · rw [if_pos c10] at hok
        by_cases g10_0 : raw.length < 2
        · rw [if_pos g10_0] at hok; exact Except.noConfusion hok
        rw [if_neg g10_0] at hok
        by_cases g10_1 : raw.length < 2 + read_8 (List.drop 1 raw)
        · rw [if_pos g10_1] at hok; exact Except.noConfusion hok
        rw [if_neg g10_1] at hok
        obtain ⟨hv, hn⟩ := hok
        omega
      rw [if_neg c10] at hok
      by_cases c11 : raw.getD 0 0 = 0xc5
      · rw [if_pos c11] at hok
        by_cases g11_0 : raw.length < 3
        · rw [if_pos g11_0] at hok; exact Except.noConfusion hok
        rw [if_neg g11_0] at hok
        by_cases g11_1 : raw.length < 3 + read_16 (List.drop 1 raw)
        · rw [if_pos g11_1] at hok; exact Except.noConfusion hok
        rw [if_neg g11_1] at hok
        obtain ⟨hv, hn⟩ := hok
        omega
      rw [if_neg c11] at hok
      by_cases c12 : raw.getD 0 0 = 0xc6
      · rw [if_pos c12] at hok
        by_cases g12_0 : raw.length < 5
        · rw [if_pos g12_0] at hok; exact Except.noConfusion hok
        rw [if_neg g12_0] at hok
        by_cases g12_1 : raw.length < 5 + read_32 (List.drop 1 raw)
        · rw [if_pos g12_1] at hok; exact Except.noConfusion hok
        rw [if_neg g12_1] at hok
        obtain ⟨hv, hn⟩ := hok
        omega
      rw [if_neg c12] at hok
      by_cases c13 : raw.getD 0 0 = 0xc7
      · rw [if_pos c13] at hok
        by_cases g13_0 : raw.length < 3
        · rw [if_pos g13_0] at hok; exact Except.noConfusion hok
        rw [if_neg g13_0] at hok
        by_cases g13_1 : raw.length < 3 + read_8 (List.drop 1 raw)
        · rw [if_pos g13_1] at hok; exact Except.noConfusion hok
        rw [if_neg g13_1] at hok
        obtain ⟨hv, hn⟩ := hok
        omega
      rw [if_neg c13] at hok
      by_cases c14 : raw.getD 0 0 = 0xc8
      · rw [if_pos c14] at hok
        by_cases g14_0 : raw.length < 4
        · rw [if_pos g14_0] at hok; exact Except.noConfusion hok
        rw [if_neg g14_0] at hok
        by_cases g14_1 : raw.length < 4 + read_16 (List.drop 1 raw)
        · rw [if_pos g14_1] at hok; exact Except.noConfusion hok
        rw [if_neg g14_1] at hok
        obtain ⟨hv, hn⟩ := hok
        omega
      rw [if_neg c14] at hok
      by_cases c15 : raw.getD 0 0 = 0xc9
      · rw [if_pos c15] at hok
        by_cases g15_0 : raw.length < 6
        · rw [if_pos g15_0] at hok; exact Except.noConfusion hok
        rw [if_neg g15_0] at hok
        by_cases g15_1 : raw.length < 6 + read_32 (List.drop 1 raw)
        · rw [if_pos g15_1] at hok; exact Except.noConfusion hok
        rw [if_neg g15_1] at hok
        obtain ⟨hv, hn⟩ := hok
        omega
      rw [if_neg c15] at hok
      by_cases c16 : raw.getD 0 0 = 0xca
      · rw [if_pos c16] at hok
        by_cases g16_0 : raw.length < 5
        · rw [if_pos g16_0] at hok; exact Except.noConfusion hok
        rw [if_neg g16_0] at hok
        obtain ⟨hv, hn⟩ := hok
        omega
      rw [if_neg c16] at hok
      by_cases c17 : raw.getD 0 0 = 0xcb
      · rw [if_pos c17] at hok
        by_cases g17_0 : raw.length < 9
        · rw [if_pos g17_0] at hok; exact Except.noConfusion hok
        rw [if_neg g17_0] at hok
        obtain ⟨hv, hn⟩ := hok
        omega
      rw [if_neg c17] at hok
      by_cases c18 : raw.getD 0 0 = 0xcc
      · rw [if_pos c18] at hok
        by_cases g18_0 : raw.length < 2
        · rw [if_pos g18_0] at hok; exact Except.noConfusion hok
        rw [if_neg g18_0] at hok
        obtain ⟨hv, hn⟩ := hok
        omega
      rw [if_neg c18] at hok
      by_cases c19 : raw.getD 0 0 = 0xcd
      · rw [if_pos c19] at hok
        by_cases g19_0 : raw.length < 3
        · rw [if_pos g19_0] at hok; exact Except.noConfusion hok
        rw [if_neg g19_0] at hok
        obtain ⟨hv, hn⟩ := hok
        omega
      rw [if_neg c19] at hok
      by_cases c20 : raw.getD 0 0 = 0xce
      · rw [if_pos c20] at hok
        by_cases g20_0 : raw.length < 5
        · rw [if_pos g20_0] at hok; exact Except.noConfusion hok
        rw [if_neg g20_0] at hok
        obtain ⟨hv, hn⟩ := hok
        omega
      rw [if_neg c20] at hok
      by_cases c21 : raw.getD 0 0 = 0xcf
      · rw [if_pos c21] at hok
        by_cases g21_0 : raw.length < 9
        · rw [if_pos g21_0] at hok; exact Except.noConfusion hok
        rw [if_neg g21_0] at hok
        obtain ⟨hv, hn⟩ := hok
        omega
      rw [if_neg c21] at hok
      by_cases c22 : raw.getD 0 0 = 0xd0
      · rw [if_pos c22] at hok
        by_cases g22_0 : raw.length < 2
        · rw [if_pos g22_0] at hok; exact Except.noConfusion hok
        rw [if_neg g22_0] at hok
        obtain ⟨hv, hn⟩ := hok
        omega
      rw [if_neg c22] at hok
      by_cases c23 : raw.getD 0 0 = 0xd1
      · rw [if_pos c23] at hok
        by_cases g23_0 : raw.length < 3
        · rw [if_pos g23_0] at hok; exact Except.noConfusion hok
        rw [if_neg g23_0] at hok
        obtain ⟨hv, hn⟩ := hok
        omega
      rw [if_neg c23] at hok
      by_cases c24 : raw.getD 0 0 = 0xd2
      · rw [if_pos c24] at hok
        by_cases g24_0 : raw.length < 5
        · rw [if_pos g24_0] at hok; exact Except.noConfusion hok
        rw [if_neg g24_0] at hok
        obtain ⟨hv, hn⟩ := hok
        omega
      rw [if_neg c24] at hok
      by_cases c25 : raw.getD 0 0 = 0xd3
      · rw [if_pos c25] at hok
        by_cases g25_0 : raw.length < 9
        · rw [if_pos g25_0] at hok; exact Except.noConfusion hok
        rw [if_neg g25_0] at hok
        obtain ⟨hv, hn⟩ := hok
        omega
      rw [if_neg c25] at hok
      by_cases c26 : raw.getD 0 0 = 0xd4
      · rw [if_pos c26] at hok
        by_cases g26_0 : raw.length < 3
        · rw [if_pos g26_0] at hok; exact Except.noConfusion hok
        rw [if_neg g26_0] at hok
        obtain ⟨hv, hn⟩ := hok
        omega
      rw [if_neg c26] at hok
      by_cases c27 : raw.getD 0 0 = 0xd5
      · rw [if_pos c27] at hok
        by_cases g27_0 : raw.length < 4
        · rw [if_pos g27_0] at hok; exact Except.noConfusion hok
        rw [if_neg g27_0] at hok
        obtain ⟨hv, hn⟩ := hok
        omega
      rw [if_neg c27] at hok
      by_cases c28 : raw.getD 0 0 = 0xd6
      · rw [if_pos c28] at hok
        by_cases g28_0 : raw.length < 6
        · rw [if_pos g28_0] at hok; exact Except.noConfusion hok
        rw [if_neg g28_0] at hok
        obtain ⟨hv, hn⟩ := hok
        omega
      rw [if_neg c28] at hok
      by_cases c29 : raw.getD 0 0 = 0xd7
      · rw [if_pos c29] at hok
        by_cases g29_0 : raw.length < 10
        · rw [if_pos g29_0] at hok; exact Except.noConfusion hok
        rw [if_neg g29_0] at hok
        obtain ⟨hv, hn⟩ := hok
        omega
      rw [if_neg c29] at hok
      by_cases c30 : raw.getD 0 0 = 0xd8
      · rw [if_pos c30] at hok
        by_cases g30_0 : raw.length < 18
        · rw [if_pos g30_0] at hok; exact Except.noConfusion hok
        rw [if_neg g30_0] at hok
        obtain ⟨hv, hn⟩ := hok
        omega
      rw [if_neg c30] at hok
      by_cases c31 : raw.getD 0 0 = 0xd9
      · rw [if_pos c31] at hok
        by_cases g31_0 : raw.length < 2
        · rw [if_pos g31_0] at hok; exact Except.noConfusion hok
        rw [if_neg g31_0] at hok
        by_cases g31_1 : raw.length < 2 + read_8 (List.drop 1 raw)
        · rw [if_pos g31_1] at hok; exact Except.noConfusion hok
        rw [if_neg g31_1] at hok
        by_cases u31 : utf8Valid (List.take (read_8 (List.drop 1 raw)) (List.drop 2 raw)) = true
        · rw [if_pos u31] at hok
          obtain ⟨hv, hn⟩ := hok
          omega
        · rw [if_neg u31] at hok; exact Except.noConfusion hok
      rw [if_neg c31] at hok
      by_cases c32 : raw.getD 0 0 = 0xda
      · rw [if_pos c32] at hok
        by_cases g32_0 : raw.length < 3
        · rw [if_pos g32_0] at hok; exact Except.noConfusion hok
        rw [if_neg g32_0] at hok
        by_cases g32_1 : raw.length < 3 + read_16 (List.drop 1 raw)
        · rw [if_pos g32_1] at hok; exact Except.noConfusion hok
        rw [if_neg g32_1] at hok
        by_cases u32 : utf8Valid (List.take (read_16 (List.drop 1 raw)) (List.drop 3 raw)) = true
        · rw [if_pos u32] at hok
          obtain ⟨hv, hn⟩ := hok
          omega
        · rw [if_neg u32] at hok; exact Except.noConfusion hok
      rw [if_neg c32] at hok
      by_cases c33 : raw.getD 0 0 = 0xdb
      · rw [if_pos c33] at hok
        by_cases g33_0 : raw.length < 5
        · rw [if_pos g33_0] at hok; exact Except.noConfusion hok
        rw [if_neg g33_0] at hok
        by_cases g33_1 : raw.length < 5 + read_32 (List.drop 1 raw)
        · rw [if_pos g33_1] at hok; exact Except.noConfusion hok
        rw [if_neg g33_1] at hok
        by_cases u33 : utf8Valid (List.take (read_32 (List.drop 1 raw)) (List.drop 5 raw)) = true
        · rw [if_pos u33] at hok
          obtain ⟨hv, hn⟩ := hok
          omega
        · rw [if_neg u33] at hok; exact Except.noConfusion hok
      rw [if_neg c33] at hok
      by_cases c34 : raw.getD 0 0 = 0xdc
      · rw [if_pos c34] at hok
        by_cases g34_0 : raw.length < 3
        · rw [if_pos g34_0] at hok; exact Except.noConfusion hok
        rw [if_neg g34_0] at hok
        cases hm : ParseError.offsetResult (parse_array (List.drop 3 raw) (read_16 (List.drop 1 raw))) 3 with
        | error e => rw [hm] at hok; exact Except.noConfusion hok
        | ok p =>
          obtain ⟨value, size⟩ := p
          rw [hm] at hok
          obtain ⟨hv, hn⟩ := hok
          rw [offsetResult_ok] at hm
          have hb := (ih (List.drop 3 raw) (by simp only [List.length_drop]; omega)).2.1 _ _ _ hm
          simp only [List.length_drop] at hb
          omega
      rw [if_neg c34] at hok
      by_cases c35 : raw.getD 0 0 = 0xdd
      · rw [if_pos c35] at hok
        by_cases g35_0 : raw.length < 5
        · rw [if_pos g35_0] at hok; exact Except.noConfusion hok
        rw [if_neg g35_0] at hok
        cases hm : ParseError.offsetResult (parse_array (List.drop 5 raw) (read_32 (List.drop 1 raw))) 5 with
        | error e => rw [hm] at hok; exact Except.noConfusion hok
        | ok p =>
          obtain ⟨value, size⟩ := p
          rw [hm] at hok
          obtain ⟨hv, hn⟩ := hok
          rw [offsetResult_ok] at hm
          have hb := (ih (List.drop 5 raw) (by simp only [List.length_drop]; omega)).2.1 _ _ _ hm
          simp only [List.length_drop] at hb
          omega
      rw [if_neg c35] at hok
      by_cases c36 : raw.getD 0 0 = 0xde
      · rw [if_pos c36] at hok
        by_cases g36_0 : raw.length < 3
        · rw [if_pos g36_0] at hok; exact Except.noConfusion hok
        rw [if_neg g36_0] at hok
        cases hm : ParseError.offsetResult (parse_map (List.drop 3 raw) (read_16 (List.drop 1 raw))) 3 with
        | error e => rw [hm] at hok; exact Except.noConfusion hok
        | ok p =>
          obtain ⟨value, size⟩ := p
          rw [hm] at hok
          obtain ⟨hv, hn⟩ := hok
          rw [offsetResult_ok] at hm
          have hb := (ih (List.drop 3 raw) (by simp only [List.length_drop]; omega)).2.2 _ _ _ hm
          simp only [List.length_drop] at hb
          omega
      rw [if_neg c36] at hok
      by_cases c37 : raw.getD 0 0 = 0xdf
      · rw [if_pos c37] at hok
        by_cases g37_0 : raw.length < 5
        · rw [if_pos g37_0] at hok; exact Except.noConfusion hok
        rw [if_neg g37_0] at hok
        cases hm : ParseError.offsetResult (parse_map (List.drop 5 raw) (read_32 (List.drop 1 raw))) 5 with
        | error e => rw [hm] at hok; exact Except.noConfusion hok
        | ok p =>
          obtain ⟨value, size⟩ := p
          rw [hm] at hok
          obtain ⟨hv, hn⟩ := hok
          rw [offsetResult_ok] at hm
          have hb := (ih (List.drop 5 raw) (by simp only [List.length_drop]; omega)).2.2 _ _ _ hm
          simp only [List.length_drop] at hb
          omega
      rw [if_neg c37] at hok
      exact Except.noConfusion hok

    have hA : ∀ len vs n, parse_array raw len = .ok (vs, n) → n ≤ raw.length := by
      intro len vs n hok
      cases len with
      | zero =>
        simp only [parse_array] at hok
        obtain ⟨hv, hn⟩ := hok
        omega
      | succ m =>
        simp only [parse_array] at hok
        cases hp : parse raw with
        | error e => rw [hp] at hok; exact Except.noConfusion hok
        | ok p =>
          obtain ⟨value, size⟩ := p
          simp only [hp] at hok
          cases ha : parse_array (List.drop size raw) m with
          | error e => rw [ha] at hok; exact Except.noConfusion hok
          | ok q =>
            obtain ⟨result, cursor⟩ := q
            rw [ha] at hok
            obtain ⟨hv, hn⟩ := hok
            have hs := hP value size hp
            have hc := (ih (List.drop size raw) (by simp only [List.length_drop]; omega)).2.1
              _ _ _ ha
            simp only [List.length_drop] at hc
            omega
    have hM : ∀ len es n, parse_map raw len = .ok (es, n) → n ≤ raw.length := by
      intro len es n hok
      simp only [parse_map] at hok
      cases ha : parse_array raw (len * 2) with
      | error e => rw [ha] at hok; exact Except.noConfusion hok
      | ok p =>
        obtain ⟨elements, size⟩ := p
        simp only [ha] at hok
        have hb := hA (len * 2) elements size ha
        obtain ⟨hv, hn⟩ := hok
        omega
    exact ⟨hP, hA, hM⟩


/-- C10: the decoder is total (parse, parse_array and parse_map are defined
by well-founded recursion on the buffer, so they terminate on every input
and return either Ok or a ParseError), every successful parse consumes at
least 1 and at most the available number of bytes, and the cursor advanced
by `parse_array` never exceeds the slice length. -/
theorem parse_consumed_bounds :
    (∀ (raw : List Nat) (v : MsgPack) (n : Nat),
      parse raw = .ok (v, n) → 1 ≤ n ∧ n ≤ raw.length) ∧
    (∀ (raw : List Nat) (len : Nat) (vs : List MsgPack) (n : Nat),
      parse_array raw len = .ok (vs, n) → n ≤ raw.length) :=
  ⟨fun raw => (parse_bounds_aux (raw.length + 1) raw (by omega)).1,
   fun raw => (parse_bounds_aux (raw.length + 1) raw (by omega)).2.1⟩

/-- C10 witness: the bounds applied to the one-byte buffer `[0xc0]`, which
parses to Nil consuming exactly 1 byte. -/
theorem parse_consumed_bounds_witness :
    1 ≤ 1 ∧ 1 ≤ ([0xc0] : List Nat).length :=
  parse_consumed_bounds.1 [0xc0] .nil 1 (by simp [parse])

end MsgpackSimple
